import Mathlib

/-!
Verification of the resource-lifecycle reconciliation core of the
insurance-underwriting MCP deployment scripts: a shallow embedding of
deployment/cleanup.py and deployment/deploy_mcp.py, with the lifecycle
claims about them proved against the embedding.

Cloud calls are modelled by explicit inputs: a probe function gives the
outcome of each polling attempt, record structures give the responses the
provider would return, and Boolean flags say whether a given provider call
succeeds or raises.  Every Python `except` handler is reflected as an
explicit branch on those outcomes.
-/

namespace InsuranceMcp

/-- Outcome of one get_agent_runtime probe inside the deletion-confirmation
wait of cleanup.py (lines 89-102): the runtime still exists (the lookup
returned normally), the lookup raised ResourceNotFoundException, or some
other exception was raised. -/
inductive ProbeResult where
  | stillExists
  | notFound
  | otherError
deriving DecidableEq, Repr

/-- Result of a bounded wait: reached the target state at the given
one-based attempt, or exhausted the attempt budget. -/
inductive WaitResult where
  | Ready (attempt : Nat)
  | TimedOut
deriving DecidableEq, Repr

/-- Backoff delay of the deletion-confirmation wait, cleanup.py line 86:
sleep_time = min(5 + (attempt * 2), 15), with attempt counted from 1. -/
def sleep_time (attempt : Nat) : Nat := min (5 + attempt * 2) 15

/-- The deletion-confirmation loop of cleanup.py lines 83-106, with an
explicit fuel argument standing for max_attempts - attempt.  Each iteration
increments the attempt counter, sleeps sleep_time seconds, then probes the
runtime: ResourceNotFoundException means deletion completed (return True in
the source, Ready here); a normal return or any other exception means not
yet, so the loop continues.  The second component records the sleeps
performed, in order, one before every probe. -/
def deletionWaitGo (probe : Nat → ProbeResult) : Nat → Nat → WaitResult × List Nat
  | 0, _ => (WaitResult.TimedOut, [])
  | fuel + 1, attempt =>
    let a := attempt + 1
    let rest := deletionWaitGo probe fuel a
    let cont : WaitResult × List Nat := (rest.1, sleep_time a :: rest.2)
    match probe a with
    | ProbeResult.notFound => (WaitResult.Ready a, [sleep_time a])
    | ProbeResult.stillExists => cont
    | ProbeResult.otherError => cont

/-- max_attempts = 20 of cleanup.py line 80. -/
def deletion_max_attempts : Nat := 20

/-- The whole deletion-confirmation wait of cleanup_agentcore_runtime:
result plus the list of sleeps performed (one per probe attempt). -/
def deletionWait (probe : Nat → ProbeResult) : WaitResult × List Nat :=
  deletionWaitGo probe deletion_max_attempts 0

/-- Details of the runtime to tear down, as built by get_mcp_server_details
in cleanup.py lines 41-47.  The source also returns the authorizer
configuration, which the teardown never reads; it is omitted here. -/
structure ServerDetails where
  agent_runtime_id : String
  agent_arn : String
  execution_role_arn : String
  execution_role_name : String
deriving DecidableEq, Repr

/-- cleanup_agentcore_runtime, cleanup.py lines 59-110: with no server
details it reports nothing to clean up and returns False; otherwise it
calls delete_agent_runtime (deleteOk says whether that call returned
normally; if it raised, the outer handler catches and returns False) and
then runs the deletion-confirmation wait, returning True exactly when the
wait ended Ready. -/
def cleanup_agentcore_runtime (sd : Option ServerDetails) (deleteOk : Bool)
    (probe : Nat → ProbeResult) : Bool :=
  match sd with
  | none => false
  | some _ =>
    if deleteOk then
      match (deletionWait probe).1 with
      | WaitResult.Ready _ => true
      | WaitResult.TimedOut => false
    else false

/-- One step of the teardown sequence in cleanup.py main().  deleteRole
stands for the whole cleanup_iam_role call (strip inline policies, detach
managed policies, delete the role); manualRemediation stands for the
printed manual-cleanup instructions of lines 312-317, which name the
execution role and its ARN; the four trailing constructors stand for the
remaining per-resource cleanup calls of lines 319-322. -/
inductive TearAction where
  | deleteRuntime (runtimeId : String)
  | deleteRole (roleName : String)
  | manualRemediation (roleName : String) (roleArn : String)
  | cognitoCleanup
  | dynamoCleanup
  | s3Cleanup
  | secretCleanup
deriving DecidableEq, Repr

/-- The teardown sequence of cleanup.py main(), lines 304-322, after the
confirmation prompt: delete the runtime and wait, then either delete the
execution role (runtime deletion confirmed) or print the manual-remediation
instructions (details exist but deletion unconfirmed), then always run the
Cognito, DynamoDB, S3 and Secrets Manager cleanup steps.  The
deleteRuntime action records a delete_agent_runtime call that returned
normally. -/
def teardownRun (sd : Option ServerDetails) (deleteOk : Bool)
    (probe : Nat → ProbeResult) : List TearAction :=
  let runtime_deleted := cleanup_agentcore_runtime sd deleteOk probe
  (match sd with
   | some d => if deleteOk then [TearAction.deleteRuntime d.agent_runtime_id] else []
   | none => []) ++
  (match sd with
   | some d =>
     if runtime_deleted then [TearAction.deleteRole d.execution_role_name]
     else [TearAction.manualRemediation d.execution_role_name d.execution_role_arn]
   | none => []) ++
  [TearAction.cognitoCleanup, TearAction.dynamoCleanup, TearAction.s3Cleanup,
   TearAction.secretCleanup]

/-- Summary entry for one runtime in a list_agent_runtimes page. -/
structure RuntimeSummary where
  agentRuntimeName : String
  agentRuntimeId : String
  agentRuntimeArn : String
deriving DecidableEq, Repr

/-- Outcome of a get_agent_runtime detail call for a given runtime id: a
normal response (role ARN plus the custom-JWT authorizer fields the deploy
script reads), ResourceNotFoundException, or any other exception. -/
inductive DetailOutcome where
  | ok (roleArn : String) (clientId : String) (discoveryUrl : String)
  | notFound
  | err
deriving DecidableEq, Repr

/-- Error raised by the runtime-listing call, as far as the scripts can
distinguish it (they cannot: both lookups catch every exception alike). -/
inductive CloudErr where
  | accessDenied
  | otherErr
deriving DecidableEq, Repr

/-- Provider state consulted by the two runtime lookups: the paginated
list_agent_runtimes answer (one inner list per page), whether the listing
call raises, and the per-id get_agent_runtime outcome. -/
structure CloudEnv where
  pages : List (List RuntimeSummary)
  listError : Option CloudErr
  detail : String → DetailOutcome

/-- Last slash-separated segment of an ARN, as in
role_arn.split(the slash)[-1] of cleanup.py line 45 and deploy_mcp.py
line 57: everything after the final slash (the whole string when there is
no slash), written over the character list so it evaluates by
reduction. -/
def lastSegment (arn : String) : String :=
  String.mk ((arn.data.reverse.takeWhile (fun c => c != '/')).reverse)

/-- Result of scanning one page in get_mcp_server_details: a usable match
was returned; the page was exhausted without one; or the lookup aborted,
because the generic detail-error handler of cleanup.py lines 37-39 itself
raises NameError — it calls logger, which cleanup.py never imports or
defines — and that NameError propagates past the loop. -/
inductive ScanResult where
  | found (d : ServerDetails)
  | exhausted
  | aborted
deriving DecidableEq, Repr

/-- Inner loop of get_mcp_server_details, cleanup.py lines 27-47: scan the
runtimes of one page in order.  On a name match try get_agent_runtime: a
normal response returns the details; a ResourceNotFoundException (lines
35-36) is treated as transient and the loop continues with the next listed
runtime; any other detail error reaches the generic handler of lines
37-39, whose logger.error call raises NameError (logger is undefined in
cleanup.py), so the whole lookup aborts instead of continuing. -/
def scanRuntimes (detail : String → DetailOutcome) (name : String) :
    List RuntimeSummary → ScanResult
  | [] => ScanResult.exhausted
  | r :: rest =>
    if r.agentRuntimeName = name then
      match detail r.agentRuntimeId with
      | DetailOutcome.ok roleArn _ _ =>
        ScanResult.found
          { agent_runtime_id := r.agentRuntimeId
            agent_arn := r.agentRuntimeArn
            execution_role_arn := roleArn
            execution_role_name := lastSegment roleArn }
      | DetailOutcome.notFound => scanRuntimes detail name rest
      | DetailOutcome.err => ScanResult.aborted
    else scanRuntimes detail name rest

/-- Pagination of get_mcp_server_details, cleanup.py lines 22-51: pages
are fetched in order until a scan finds details (returned), the scan
aborts (the NameError reaches the outer handler of lines 55-57, which
returns None), or the listing ends (None). -/
def scanPages (detail : String → DetailOutcome) (name : String) :
    List (List RuntimeSummary) → Option ServerDetails
  | [] => none
  | page :: rest =>
    match scanRuntimes detail name page with
    | ScanResult.found d => some d
    | ScanResult.aborted => none
    | ScanResult.exhausted => scanPages detail name rest

/-- get_mcp_server_details, cleanup.py lines 15-57: page through the full
runtime listing looking for the configured name; an error of the listing
call itself is caught by the outer handler and yields none. -/
def get_mcp_server_details (env : CloudEnv) (name : String) :
    Option ServerDetails :=
  match env.listError with
  | some _ => none
  | none => scanPages env.detail name env.pages

/-- What check_existing_mcp_server returns on success, deploy_mcp.py lines
76-82. -/
structure ExistingConfig where
  agent_arn : String
  agent_runtime_id : String
  execution_role_name : String
  execution_role_arn : String
  service_client_id : String
  discovery_url : String
deriving DecidableEq, Repr

/-- Pagination of check_existing_mcp_server, deploy_mcp.py lines 31-42: the
loop breaks out of the page scan at the first name match and then also
stops fetching further pages. -/
def findFirstMatch (name : String) :
    List (List RuntimeSummary) → Option RuntimeSummary
  | [] => none
  | page :: rest =>
    match page.find? (fun r => r.agentRuntimeName == name) with
    | some r => some r
    | none => findFirstMatch name rest

/-- Observable interactions of one deploy run with the provider, plus the
two warnings whose presence the claims talk about. -/
inductive DeployEvent where
  | listRuntimes
  | getRuntime (runtimeId : String)
  | createUserPool
  | createUserPoolDomain
  | createResourceServer
  | createUserPoolClient
  | createSecret
  | configureRuntime (clientId : String) (discoveryUrl : String)
      (autoCreateRole : Bool) (executionRole : Option String)
  | warnPreLaunchTimeout
  | launchRuntime
  | putRolePolicy (roleName : String) (policyName : String)
  | warnPermissions
deriving DecidableEq, Repr

/-- check_existing_mcp_server, deploy_mcp.py lines 17-85: paginate until
the first name match (the whole paginated read is recorded as one
listRuntimes event), then fetch that runtime in a second
get_agent_runtime call.  The entire body sits inside a single
try/except Exception handler (lines 83-85), so an error of the listing
call, a ResourceNotFoundException from the detail call, and any other
error all yield none — the caller then treats the server as absent. -/
def check_existing_mcp_server (env : CloudEnv) (name : String) :
    Option ExistingConfig × List DeployEvent :=
  match env.listError with
  | some _ => (none, [DeployEvent.listRuntimes])
  | none =>
    match findFirstMatch name env.pages with
    | none => (none, [DeployEvent.listRuntimes])
    | some r =>
      match env.detail r.agentRuntimeId with
      | DetailOutcome.ok roleArn clientId discoveryUrl =>
        (some { agent_arn := r.agentRuntimeArn
                agent_runtime_id := r.agentRuntimeId
                execution_role_name := lastSegment roleArn
                execution_role_arn := roleArn
                service_client_id := clientId
                discovery_url := discoveryUrl },
         [DeployEvent.listRuntimes, DeployEvent.getRuntime r.agentRuntimeId])
      | DetailOutcome.notFound =>
        (none, [DeployEvent.listRuntimes, DeployEvent.getRuntime r.agentRuntimeId])
      | DetailOutcome.err =>
        (none, [DeployEvent.listRuntimes, DeployEvent.getRuntime r.agentRuntimeId])

/-- Generic bounded fixed-delay poll shared by the two role-propagation
checks of deploy_mcp.py (lines 664-694 and 719-758): attempts are numbered
from 1, fuel is the remaining budget.  Returns the first successful probe
value and the number of probes performed. -/
def pollGo {α : Type} (probe : Nat → Option α) : Nat → Nat → Option α × Nat
  | 0, _ => (none, 0)
  | fuel + 1, attempt =>
    match probe (attempt + 1) with
    | some v => (some v, 1)
    | none =>
      let r := pollGo probe fuel (attempt + 1)
      (r.1, r.2 + 1)

/-- max_attempts = 24 of deploy_mcp.py lines 664 and 719. -/
def iam_check_max_attempts : Nat := 24

/-- Fixed sleep of 5 seconds after every unsuccessful role-check attempt,
deploy_mcp.py lines 685, 689, 736, 752, 755 and 758. -/
def iam_check_delay : Nat := 5

/-- Pre-launch IAM role propagation check, deploy_mcp.py lines 652-694:
probe a says whether on attempt a the full role listing contains both
expected role-name stems; every unsuccessful attempt sleeps 5 seconds;
exhausting the 24-attempt budget leaves roles_verified false.  Returns
roles_verified and the number of probes performed. -/
def preLaunchRoleCheck (probe : Nat → Bool) : Bool × Nat :=
  let r := pollGo (fun a => if probe a then some () else none)
    iam_check_max_attempts 0
  (r.1.isSome, r.2)

/-- Post-launch role verification, deploy_mcp.py lines 714-758: probe a
returns the execution role name when on attempt a the runtime details
carry a role ARN and an IAM get_role on that name succeeds; every other
outcome (runtime not found, role not propagated, role ARN missing, any
other error) sleeps 5 seconds and retries. -/
def postLaunchRoleVerify (probe : Nat → Option String) : Option String × Nat :=
  pollGo probe iam_check_max_attempts 0

/-- Per-call outcomes and returned identifiers for
setup_cognito_user_pool. -/
structure AuthEnv where
  poolOk : Bool
  domainOk : Bool
  resourceServerOk : Bool
  clientOk : Bool
  secretOk : Bool
  poolId : String
  clientId : String
  clientSecret : String
  domainPfx : String
deriving DecidableEq, Repr

/-- Credential bundle built and persisted by setup_cognito_user_pool,
deploy_mcp.py lines 163-191.  The domain-name field of the source is
rendered here as domain_pfx. -/
structure CognitoBundle where
  pool_id : String
  service_client_id : String
  service_client_secret : String
  discovery_url : String
  oauth_token_url : String
  domain_pfx : String
deriving DecidableEq, Repr

/-- Discovery address derivation of deploy_mcp.py line 157. -/
def discoveryUrlFor (region poolId : String) : String :=
  "https://cognito-idp." ++ region ++ ".amazonaws.com/" ++ poolId ++
    "/.well-known/openid-configuration"

/-- Token address derivation of deploy_mcp.py line 156. -/
def tokenUrlFor (domainPfx region : String) : String :=
  "https://" ++ domainPfx ++ ".auth." ++ region ++
    ".amazoncognito.com/oauth2/token"

/-- setup_cognito_user_pool, deploy_mcp.py lines 87-200: create the user
pool, the domain, the resource server, the service client, then persist
the bundle to the secret store.  The sequence sits in one try handler
(lines 192-200): the first raising call makes the function return none and
no later call is attempted.  Each event records a creation call that
returned normally. -/
def setup_cognito_user_pool (a : AuthEnv) (region : String) :
    Option CognitoBundle × List DeployEvent :=
  if !a.poolOk then (none, [])
  else if !a.domainOk then (none, [DeployEvent.createUserPool])
  else if !a.resourceServerOk then
    (none, [DeployEvent.createUserPool, DeployEvent.createUserPoolDomain])
  else if !a.clientOk then
    (none, [DeployEvent.createUserPool, DeployEvent.createUserPoolDomain,
            DeployEvent.createResourceServer])
  else if !a.secretOk then
    (none, [DeployEvent.createUserPool, DeployEvent.createUserPoolDomain,
            DeployEvent.createResourceServer, DeployEvent.createUserPoolClient])
  else
    (some { pool_id := a.poolId
            service_client_id := a.clientId
            service_client_secret := a.clientSecret
            discovery_url := discoveryUrlFor region a.poolId
            oauth_token_url := tokenUrlFor a.domainPfx region
            domain_pfx := a.domainPfx },
     [DeployEvent.createUserPool, DeployEvent.createUserPoolDomain,
      DeployEvent.createResourceServer, DeployEvent.createUserPoolClient,
      DeployEvent.createSecret])

/-- Inline policy names attached by add_permissions, deploy_mcp.py lines
511, 517 and 523, in call order. -/
def policyNames : List String :=
  ["NovaInsuranceDynamoDBAccess", "NovaInsuranceS3Access",
   "NovaInsuranceBedrockAccess"]

/-- add_permissions, deploy_mcp.py lines 460-530: three put_role_policy
calls in order.  permFailAt gives the index of the first call that raises,
if any; the handlers of lines 527-530 catch EntityAlreadyExists and every
other exception alike, so the function returns normally either way, at
worst printing a warning (recorded as warnPermissions). -/
def add_permissions (roleName : String) (permFailAt : Option Nat) :
    List DeployEvent :=
  match permFailAt with
  | none => policyNames.map (fun p => DeployEvent.putRolePolicy roleName p)
  | some k =>
    (policyNames.take k).map (fun p => DeployEvent.putRolePolicy roleName p) ++
      [DeployEvent.warnPermissions]

/-- Exit condition of one deploy run: normal completion, sys.exit(2) on a
non-affirmative update prompt (deploy_mcp.py line 579), or an exception
reaching the top-level handler (lines 825-835). -/
inductive DeployExit where
  | success
  | userCancelled
  | failure (msg : String)
deriving DecidableEq, Repr

/-- Process exit status for each exit condition: 0 on normal completion,
2 for the user-cancelled sys.exit(2), 1 from the top-level failure
handler. -/
def exitCode : DeployExit → Nat
  | DeployExit.success => 0
  | DeployExit.userCancelled => 2
  | DeployExit.failure _ => 1

/-- The normalisation response.strip().lower() of deploy_mcp.py line 573,
written over the character list so it evaluates by reduction: drop leading
and trailing whitespace, then lower-case every character. -/
def stripLower (s : String) : String :=
  String.mk (((s.data.dropWhile Char.isWhitespace).reverse.dropWhile
    Char.isWhitespace).reverse.map Char.toLower)

/-- The update-prompt test of deploy_mcp.py lines 573-575: the normalised
reply is affirmative exactly when it is y or yes. -/
def affirmative (s : String) : Bool :=
  stripLower s == "y" || stripLower s == "yes"

/-- Message of the fatal post-launch exception, deploy_mcp.py line 761. -/
def iamPropagationFailureMsg : String :=
  "IAM role failed to propagate after " ++
    toString (iam_check_max_attempts * iam_check_delay) ++ " seconds"

/-- All the outcome inputs one deploy run consumes: the provider state for
detection, the prompt reply, the auth-provisioning outcomes, the two
role-check probes, whether the launch call and the update-mode
get_agent_runtime call return normally, and where (if anywhere) the
permission attachment first fails. -/
structure DeployEnv where
  cloud : CloudEnv
  mcp_server_name : String
  region : String
  answer : String
  auth : AuthEnv
  preProbe : Nat → Bool
  launchOk : Bool
  postProbe : Nat → Option String
  updateRoleArn : Option String
  permFailAt : Option Nat

/-- deploy_mcp_server, deploy_mcp.py lines 532-816, with local file
operations (config copy, file validation, integration document) elided.
Detection drives the branch: a found runtime plus an affirmative reply is
update mode (reuse the authorizer client id and discovery address from the
existing runtime, pass the existing execution role, no auth provisioning,
no pre- or post-launch role polling, then re-fetch the current role and
re-attach the policies); a found runtime plus any non-affirmative reply is
sys.exit(2); no runtime found is new mode (provision auth or raise, then
configure with auto-created role, soft pre-launch check, launch, fatal
post-launch verification, then attach policies). -/
def deploy_mcp_server (e : DeployEnv) : DeployExit × List DeployEvent :=
  let det := check_existing_mcp_server e.cloud e.mcp_server_name
  match det.1 with
  | some existing =>
    if affirmative e.answer then
      let ev := det.2 ++
        [DeployEvent.configureRuntime existing.service_client_id
          existing.discovery_url false (some existing.execution_role_arn)]
      if e.launchOk then
        match e.updateRoleArn with
        | some roleArn =>
          (DeployExit.success,
            ev ++ [DeployEvent.launchRuntime,
                   DeployEvent.getRuntime existing.agent_runtime_id] ++
              add_permissions (lastSegment roleArn) e.permFailAt)
        | none =>
          (DeployExit.failure "get_agent_runtime",
            ev ++ [DeployEvent.launchRuntime])
      else (DeployExit.failure "launch", ev)
    else (DeployExit.userCancelled, det.2)
  | none =>
    let au := setup_cognito_user_pool e.auth e.region
    match au.1 with
    | none => (DeployExit.failure "Failed to setup Cognito", det.2 ++ au.2)
    | some bundle =>
      let ev1 := det.2 ++ au.2 ++
        [DeployEvent.configureRuntime bundle.service_client_id
          bundle.discovery_url true none]
      let pre := preLaunchRoleCheck e.preProbe
      let ev2 := ev1 ++ (if pre.1 then [] else [DeployEvent.warnPreLaunchTimeout])
      if e.launchOk then
        match (postLaunchRoleVerify e.postProbe).1 with
        | some roleName =>
          (DeployExit.success,
            ev2 ++ [DeployEvent.launchRuntime] ++
              add_permissions roleName e.permFailAt)
        | none =>
          (DeployExit.failure iamPropagationFailureMsg,
            ev2 ++ [DeployEvent.launchRuntime])
      else (DeployExit.failure "launch", ev2)

/-- Whether an event mutates provider state: listRuntimes and getRuntime
are read-only; configureRuntime only writes the local AgentCore
configuration; the warnings are prints. -/
def isMutation : DeployEvent → Bool
  | DeployEvent.listRuntimes => false
  | DeployEvent.getRuntime _ => false
  | DeployEvent.configureRuntime _ _ _ _ => false
  | DeployEvent.warnPreLaunchTimeout => false
  | DeployEvent.warnPermissions => false
  | DeployEvent.createUserPool => true
  | DeployEvent.createUserPoolDomain => true
  | DeployEvent.createResourceServer => true
  | DeployEvent.createUserPoolClient => true
  | DeployEvent.createSecret => true
  | DeployEvent.launchRuntime => true
  | DeployEvent.putRolePolicy _ _ => true

/-- Troubleshooting hints printed by the top-level handler, deploy_mcp.py
lines 830-834. -/
def troubleshootingHints : List String :=
  ["Check AWS credentials: aws sts get-caller-identity",
   "Verify Bedrock permissions in IAM",
   "Ensure config/enterprise_config.yaml is correct",
   "Check CloudWatch logs for detailed error messages"]

/-- Entry-point behaviour of deploy_mcp.py lines 817-835: the process exit
status and the hint set printed, per exit condition. -/
def deployMain (e : DeployEnv) : Nat × List String :=
  match (deploy_mcp_server e).1 with
  | DeployExit.success => (0, [])
  | DeployExit.userCancelled => (2, [])
  | DeployExit.failure _ => (1, troubleshootingHints)

/-- State of the deployment object-store bucket. -/
structure S3State where
  bucketExists : Bool
  objects : List String
deriving DecidableEq, Repr

/-- Deletion calls the bucket cleanup issues. -/
inductive S3Action where
  | deleteObjects (keys : List String)
  | deleteBucket
deriving DecidableEq, Repr

/-- Default MaxKeys of a list_objects_v2 call: the response carries at most
1000 keys. -/
def s3_list_max_keys : Nat := 1000

/-- cleanup_s3_bucket, cleanup.py lines 169-196: one unpaginated
list_objects_v2 call, a delete_objects on exactly the listed keys when any
were listed, then delete_bucket.  When the bucket is absent, NoSuchBucket
is caught and the step ends quietly (the Bool result, true = no warning
printed, models this as success).  When the bucket still holds keys beyond
the listed page, delete_bucket raises BucketNotEmpty, which the outer
handler catches with a warning — the bucket and the unlisted keys
remain. -/
def cleanup_s3_bucket (s : S3State) : S3State × List S3Action × Bool :=
  if !s.bucketExists then (s, ([], true))
  else
    let page := s.objects.take s3_list_max_keys
    let acts := if page.isEmpty then [] else [S3Action.deleteObjects page]
    let remaining := s.objects.drop s3_list_max_keys
    if remaining.isEmpty then
      ({ bucketExists := false, objects := [] },
       (acts ++ [S3Action.deleteBucket], true))
    else
      ({ bucketExists := true, objects := remaining }, (acts, false))

/-- Fields of the stored credential secret that the Cognito teardown reads,
cleanup.py lines 127-132. -/
structure CognitoSecret where
  pool_id : String
  domain_pfx : String
deriving DecidableEq, Repr

/-- Deletion calls the Cognito cleanup issues. -/
inductive CognitoAction where
  | deleteDomain (domainName : String) (poolId : String)
  | deleteUserPool (poolId : String)
deriving DecidableEq, Repr

/-- Name of the stored credential secret for a runtime logical name,
cleanup.py line 121 and deploy_mcp.py line 160. -/
def cognitoSecretName (serverName : String) : String :=
  serverName ++ "/cognito/credentials"

/-- cleanup_cognito_resources, cleanup.py lines 112-147: the pool identity
is read from the secret store entry alone; when get_secret_value raises
ResourceNotFoundException the step reports that no Cognito resources were
found and deletes nothing.  On a present secret the domain is deleted
first (errors there are swallowed by the inner bare handler) and the pool
second, both identified by the fields of the secret. -/
def cleanup_cognito_resources (secretStore : String → Option CognitoSecret)
    (serverName : String) : List CognitoAction :=
  match secretStore (cognitoSecretName serverName) with
  | none => []
  | some c =>
    [CognitoAction.deleteDomain c.domain_pfx c.pool_id,
     CognitoAction.deleteUserPool c.pool_id]

/-- Runtime summary used by the concrete environments below. -/
def sampleRuntime : RuntimeSummary :=
  { agentRuntimeName := "ins-mcp"
    agentRuntimeId := "rt-1"
    agentRuntimeArn := "arn:aws:bedrock:us-east-1:123456789012:runtime/rt-1" }

/-- An auth environment in which every provisioning call succeeds. -/
def okAuth : AuthEnv :=
  { poolOk := true, domainOk := true, resourceServerOk := true
    clientOk := true, secretOk := true
    poolId := "us-east-1_POOL", clientId := "client-1"
    clientSecret := "cs-1", domainPfx := "nova-insurance-mcp-abcd1234" }

/-- A concrete new-mode run: nothing listed, auth provisioning succeeds,
neither role poll ever succeeds, the launch call returns normally. -/
def newModeEnv : DeployEnv :=
  { cloud := { pages := [], listError := none
               detail := fun _ => DetailOutcome.notFound }
    mcp_server_name := "ins-mcp"
    region := "us-east-1"
    answer := "y"
    auth := okAuth
    preProbe := fun _ => false
    launchOk := true
    postProbe := fun _ => none
    updateRoleArn := none
    permFailAt := none }

/-- A concrete update-mode run: the runtime is listed with resolvable
details and the operator answers y. -/
def updateModeEnv : DeployEnv :=
  { cloud := { pages := [[sampleRuntime]], listError := none
               detail := fun _ =>
                 DetailOutcome.ok "arn:aws:iam::123456789012:role/ins-role"
                   "client-9" "https://disc.example" }
    mcp_server_name := "ins-mcp"
    region := "us-east-1"
    answer := "y"
    auth := okAuth
    preProbe := fun _ => true
    launchOk := true
    postProbe := fun _ => some "ins-role"
    updateRoleArn := some "arn:aws:iam::123456789012:role/ins-role"
    permFailAt := none }

/-- What detection returns on updateModeEnv. -/
def sampleExisting : ExistingConfig :=
  { agent_arn := "arn:aws:bedrock:us-east-1:123456789012:runtime/rt-1"
    agent_runtime_id := "rt-1"
    execution_role_name := "ins-role"
    execution_role_arn := "arn:aws:iam::123456789012:role/ins-role"
    service_client_id := "client-9"
    discovery_url := "https://disc.example" }

/-- The update-mode run with a negative reply to the update prompt. -/
def cancelEnv : DeployEnv := { updateModeEnv with answer := "n" }

/-- A runtime entry whose detail lookup raises not-found (already deleted
between the listing and the detail call). -/
def ghostRuntime : RuntimeSummary :=
  { agentRuntimeName := "ins-mcp", agentRuntimeId := "rt-A"
    agentRuntimeArn := "arnA" }

/-- A runtime entry on a later page whose detail lookup resolves. -/
def laterRuntime : RuntimeSummary :=
  { agentRuntimeName := "ins-mcp", agentRuntimeId := "rt-B"
    agentRuntimeArn := "arnB" }

/-- A listing with the two matching runtimes above on successive pages:
details resolve only for the second. -/
def racyCloud : CloudEnv :=
  { pages := [[ghostRuntime], [laterRuntime]]
    listError := none
    detail := fun i =>
      if i == "rt-B" then
        DetailOutcome.ok "arn:aws:iam::123456789012:role/role-B" "cB" "dB"
      else DetailOutcome.notFound }

/-- A run whose runtime-listing call raises with the operator's own
AccessDenied while every later call succeeds. -/
def accessDeniedEnv : DeployEnv :=
  { newModeEnv with
    cloud := { pages := [[sampleRuntime]]
               listError := some CloudErr.accessDenied
               detail := fun _ =>
                 DetailOutcome.ok "arn:aws:iam::123456789012:role/ins-role"
                   "client-9" "https://disc.example" }
    preProbe := fun _ => true
    postProbe := fun _ => some "ins-role" }

/-- A bucket holding 1001 objects: one more than a single list page. -/
def bigBucket : S3State :=
  { bucketExists := true
    objects := (List.range 1001).map (fun i => toString i) }

theorem deletionWaitGo_length (probe : Nat → ProbeResult) :
    ∀ fuel attempt, (deletionWaitGo probe fuel attempt).2.length ≤ fuel := by
  intro fuel
  induction fuel with
  | zero => intro attempt; simp [deletionWaitGo]
  | succ k ih =>
    intro attempt
    cases h : probe (attempt + 1)
    case stillExists =>
      simp only [deletionWaitGo, h, List.length_cons]
      exact Nat.succ_le_succ (ih (attempt + 1))
    case notFound => simp [deletionWaitGo, h]
    case otherError =>
      simp only [deletionWaitGo, h, List.length_cons]
      exact Nat.succ_le_succ (ih (attempt + 1))

theorem deletionWaitGo_sleeps (probe : Nat → ProbeResult) :
    ∀ fuel attempt, (deletionWaitGo probe fuel attempt).2 =
      List.map sleep_time
        (List.range' (attempt + 1) (deletionWaitGo probe fuel attempt).2.length) := by
  intro fuel
  induction fuel with
  | zero => intro attempt; simp [deletionWaitGo]
  | succ k ih =>
    intro attempt
    cases hp : probe (attempt + 1)
    case notFound => simp [deletionWaitGo, hp]
    case stillExists =>
      simp only [deletionWaitGo, hp, List.length_cons, List.range'_succ, List.map_cons]
      rw [ih (attempt + 1)]
      simp
    case otherError =>
      simp only [deletionWaitGo, hp, List.length_cons, List.range'_succ, List.map_cons]
      rw [ih (attempt + 1)]
      simp

theorem deletionWaitGo_ready_iff (probe : Nat → ProbeResult) :
    ∀ fuel attempt a, (deletionWaitGo probe fuel attempt).1 = WaitResult.Ready a ↔
      (attempt < a ∧ a ≤ attempt + fuel ∧ probe a = ProbeResult.notFound ∧
        ∀ b, attempt < b → b < a → probe b ≠ ProbeResult.notFound) := by
  intro fuel
  induction fuel with
  | zero =>
    intro attempt a
    simp only [deletionWaitGo]
    constructor
    · intro h; cases h
    · rintro ⟨h1, h2, -, -⟩; omega
  | succ k ih =>
    intro attempt a
    cases hp : probe (attempt + 1)
    · -- still exists: continue with the rest of the budget
      simp only [deletionWaitGo, hp]
      rw [ih (attempt + 1) a]
      constructor
      · rintro ⟨h1, h2, h3, h4⟩
        refine ⟨by omega, by omega, h3, ?_⟩
        intro b hb1 hb2
        rcases Nat.lt_or_ge (attempt + 1) b with hgt | hle
        · exact h4 b hgt hb2
        · have : b = attempt + 1 := by omega
          subst this
          simp [hp]
      · rintro ⟨h1, h2, h3, h4⟩
        have hne : a ≠ attempt + 1 := by
          intro h; subst h; rw [hp] at h3; cases h3
        refine ⟨by omega, by omega, h3, ?_⟩
        intro b hb1 hb2
        exact h4 b (by omega) hb2
    · -- not found: Ready at attempt + 1
      simp only [deletionWaitGo, hp]
      constructor
      · intro h
        have ha : a = attempt + 1 := by
          cases h; rfl
        subst ha
        refine ⟨by omega, by omega, hp, ?_⟩
        intro b hb1 hb2; omega
      · rintro ⟨h1, h2, h3, h4⟩
        have ha : a = attempt + 1 := by
          by_contra hne
          exact h4 (attempt + 1) (by omega) (by omega) hp
        subst ha; rfl
    · -- other error: continue with the rest of the budget
      simp only [deletionWaitGo, hp]
      rw [ih (attempt + 1) a]
      constructor
      · rintro ⟨h1, h2, h3, h4⟩
        refine ⟨by omega, by omega, h3, ?_⟩
        intro b hb1 hb2
        rcases Nat.lt_or_ge (attempt + 1) b with hgt | hle
        · exact h4 b hgt hb2
        · have : b = attempt + 1 := by omega
          subst this
          simp [hp]
      · rintro ⟨h1, h2, h3, h4⟩
        have hne : a ≠ attempt + 1 := by
          intro h; subst h; rw [hp] at h3; cases h3
        refine ⟨by omega, by omega, h3, ?_⟩
        intro b hb1 hb2
        exact h4 b (by omega) hb2

theorem deletionWaitGo_timeout_iff (probe : Nat → ProbeResult) :
    ∀ fuel attempt, (deletionWaitGo probe fuel attempt).1 = WaitResult.TimedOut ↔
      ∀ a, attempt < a → a ≤ attempt + fuel → probe a ≠ ProbeResult.notFound := by
  intro fuel
  induction fuel with
  | zero =>
    intro attempt
    constructor
    · intro _ a h1 h2; omega
    · intro _; rfl
  | succ k ih =>
    intro attempt
    cases hp : probe (attempt + 1)
    · simp only [deletionWaitGo, hp]
      rw [ih (attempt + 1)]
      constructor
      · intro h a h1 h2
        rcases Nat.lt_or_ge (attempt + 1) a with hgt | hle
        · exact h a hgt (by omega)
        · have : a = attempt + 1 := by omega
          subst this; simp [hp]
      · intro h a h1 h2
        exact h a (by omega) (by omega)
    · simp only [deletionWaitGo, hp]
      constructor
      · intro h; cases h
      · intro h
        exact absurd hp (h (attempt + 1) (by omega) (by omega))
    · simp only [deletionWaitGo, hp]
      rw [ih (attempt + 1)]
      constructor
      · intro h a h1 h2
        rcases Nat.lt_or_ge (attempt + 1) a with hgt | hle
        · exact h a hgt (by omega)
        · have : a = attempt + 1 := by omega
          subst this; simp [hp]
      · intro h a h1 h2
        exact h a (by omega) (by omega)

/-- C2: the teardown deletion-confirmation wait performs at most 20 probe
attempts, sleeping min(5 + 2*attempt, 15) seconds before each probe; it
returns Ready at the first probe whose runtime lookup raised the provider
not-found condition, treats any other probe outcome (runtime still visible,
or any other error) as not-yet, and returns TimedOut exactly when no
attempt within the budget saw not-found — so it always terminates within
maxAttempts iterations regardless of probe outcomes. -/
theorem deletion_wait_spec (probe : Nat → ProbeResult) :
    (deletionWait probe).2.length ≤ 20 ∧
    (deletionWait probe).2 =
      List.map (fun a => min (5 + 2 * a) 15)
        (List.range' 1 (deletionWait probe).2.length) ∧
    (∀ a, (deletionWait probe).1 = WaitResult.Ready a →
      (probe a = ProbeResult.notFound ∧ 1 ≤ a ∧ a ≤ 20 ∧
        ∀ b, 1 ≤ b → b < a → probe b ≠ ProbeResult.notFound)) ∧
    ((deletionWait probe).1 = WaitResult.TimedOut ↔
      ∀ a, 1 ≤ a → a ≤ 20 → probe a ≠ ProbeResult.notFound) := by
  have hfun : (fun a => min (5 + 2 * a) 15) = sleep_time := by
    funext a; simp [sleep_time, Nat.mul_comm]
  refine ⟨deletionWaitGo_length probe 20 0, ?_, ?_, ?_⟩
  · rw [hfun]
    exact deletionWaitGo_sleeps probe 20 0
  · intro a ha
    have := (deletionWaitGo_ready_iff probe 20 0 a).mp ha
    refine ⟨this.2.2.1, this.1, by omega, ?_⟩
    intro b hb1 hb2
    exact this.2.2.2 b hb1 hb2
  · have := deletionWaitGo_timeout_iff probe 20 0
    rw [show (0 : Nat) + 20 = 20 by rfl] at this
    exact this

/-- C1: in every teardown run, the execution role is deleted only when the
immediately preceding deletion-confirmation wait returned Ready; when
deletion was not confirmed but a runtime record exists, role deletion is
skipped, the manual-remediation text carrying the role name and role ARN is
emitted, and the teardown still reaches the Cognito pool, DynamoDB tables,
S3 bucket and secret steps; when deletion was confirmed the run is exactly
runtime deletion, role deletion, then the four remaining steps in order. -/
theorem teardown_role_gating (sd : Option ServerDetails) (deleteOk : Bool)
    (probe : Nat → ProbeResult) :
    (∀ n, TearAction.deleteRole n ∈ teardownRun sd deleteOk probe →
      deleteOk = true ∧ ∃ a, (deletionWait probe).1 = WaitResult.Ready a) ∧
    (∀ d, sd = some d → cleanup_agentcore_runtime sd deleteOk probe = false →
      ((∀ n, TearAction.deleteRole n ∉ teardownRun sd deleteOk probe) ∧
       TearAction.manualRemediation d.execution_role_name d.execution_role_arn ∈
         teardownRun sd deleteOk probe ∧
       TearAction.cognitoCleanup ∈ teardownRun sd deleteOk probe ∧
       TearAction.dynamoCleanup ∈ teardownRun sd deleteOk probe ∧
       TearAction.s3Cleanup ∈ teardownRun sd deleteOk probe ∧
       TearAction.secretCleanup ∈ teardownRun sd deleteOk probe)) ∧
    (∀ d, sd = some d → cleanup_agentcore_runtime sd deleteOk probe = true →
      teardownRun sd deleteOk probe =
        [TearAction.deleteRuntime d.agent_runtime_id,
         TearAction.deleteRole d.execution_role_name,
         TearAction.cognitoCleanup, TearAction.dynamoCleanup,
         TearAction.s3Cleanup, TearAction.secretCleanup]) := by
  refine ⟨?_, ?_, ?_⟩
  · intro n hn
    cases sd with
    | none => simp [teardownRun, cleanup_agentcore_runtime] at hn
    | some d =>
      cases deleteOk with
      | false => simp [teardownRun, cleanup_agentcore_runtime] at hn
      | true =>
        cases hw : (deletionWait probe).1 with
        | Ready a => exact ⟨rfl, a, rfl⟩
        | TimedOut => simp [teardownRun, cleanup_agentcore_runtime, hw] at hn
  · intro d hd hfalse
    subst hd
    simp only [teardownRun, hfalse]
    cases deleteOk <;> simp
  · intro d hd htrue
    subst hd
    simp only [teardownRun, htrue]
    have hOk : deleteOk = true := by
      cases deleteOk with
      | false => simp [cleanup_agentcore_runtime] at htrue
      | true => rfl
    subst hOk
    simp

theorem pollGo_count_le {α : Type} (probe : Nat → Option α) :
    ∀ fuel attempt, (pollGo probe fuel attempt).2 ≤ fuel := by
  intro fuel
  induction fuel with
  | zero => intro attempt; simp [pollGo]
  | succ k ih =>
    intro attempt
    cases h : probe (attempt + 1)
    case none =>
      simp only [pollGo, h]
      exact Nat.succ_le_succ (ih (attempt + 1))
    case some v => simp [pollGo, h]

theorem pollGo_none_iff {α : Type} (probe : Nat → Option α) :
    ∀ fuel attempt, (pollGo probe fuel attempt).1 = none ↔
      ∀ a, attempt < a → a ≤ attempt + fuel → probe a = none := by
  intro fuel
  induction fuel with
  | zero =>
    intro attempt
    constructor
    · intro _ a h1 h2; omega
    · intro _; rfl
  | succ k ih =>
    intro attempt
    cases hp : probe (attempt + 1)
    case none =>
      simp only [pollGo, hp]
      rw [ih (attempt + 1)]
      constructor
      · intro h a h1 h2
        rcases Nat.lt_or_ge (attempt + 1) a with hgt | hle
        · exact h a hgt (by omega)
        · have : a = attempt + 1 := by omega
          subst this; exact hp
      · intro h a h1 h2
        exact h a (by omega) (by omega)
    case some v =>
      simp only [pollGo, hp]
      constructor
      · intro h; cases h
      · intro h
        have := h (attempt + 1) (by omega) (by omega)
        rw [hp] at this; cases this

theorem check_existing_events (env : CloudEnv) (name : String) :
    ∀ ev ∈ (check_existing_mcp_server env name).2, isMutation ev = false := by
  intro ev hev
  unfold check_existing_mcp_server at hev
  cases hl : env.listError with
  | some err =>
    simp only [hl] at hev
    simp at hev
    subst hev; rfl
  | none =>
    simp only [hl] at hev
    cases hf : findFirstMatch name env.pages with
    | none =>
      simp only [hf] at hev
      simp at hev
      subst hev; rfl
    | some r =>
      simp only [hf] at hev
      cases hd : env.detail r.agentRuntimeId with
      | ok roleArn clientId discoveryUrl =>
        simp only [hd] at hev
        simp at hev
        rcases hev with h | h <;> subst h <;> rfl
      | notFound =>
        simp only [hd] at hev
        simp at hev
        rcases hev with h | h <;> subst h <;> rfl
      | err =>
        simp only [hd] at hev
        simp at hev
        rcases hev with h | h <;> subst h <;> rfl

theorem add_permissions_events (roleName : String) (k : Option Nat) :
    ∀ ev ∈ add_permissions roleName k,
      (∃ r p, ev = DeployEvent.putRolePolicy r p) ∨
        ev = DeployEvent.warnPermissions := by
  intro ev hev
  unfold add_permissions at hev
  cases k with
  | none =>
    simp only [List.mem_map] at hev
    obtain ⟨p, -, hp⟩ := hev
    exact Or.inl ⟨roleName, p, hp.symm⟩
  | some j =>
    rw [List.mem_append] at hev
    rcases hev with h | h
    · simp only [List.mem_map] at h
      obtain ⟨p, -, hp⟩ := h
      exact Or.inl ⟨roleName, p, hp.symm⟩
    · simp at h
      exact Or.inr h

theorem setup_cognito_events (a : AuthEnv) (region : String) :
    ∀ ev ∈ (setup_cognito_user_pool a region).2,
      ev = DeployEvent.createUserPool ∨ ev = DeployEvent.createUserPoolDomain ∨
      ev = DeployEvent.createResourceServer ∨
      ev = DeployEvent.createUserPoolClient ∨ ev = DeployEvent.createSecret := by
  obtain ⟨p, d, rs, c, sec, pid, cid, csec, dpx⟩ := a
  intro ev hev
  cases p <;> cases d <;> cases rs <;> cases c <;> cases sec <;>
    simp [setup_cognito_user_pool] at hev <;> tauto

/-- C3: in a new-mode deployment the pre-launch role-propagation check is
soft and the post-launch role verification is fatal.  Both loops make at
most 24 probe attempts with a fixed 5-second delay; the pre-launch check
is exhausted exactly when no attempt up to 24 sees the roles, and then the
trace holds the timeout warning while the launch still happens; the
post-launch verification is exhausted exactly when no attempt up to 24
resolves the role, and then the run ends in the fatal propagation failure
with exit status 1 and no permission ever attached. -/
theorem role_check_soft_vs_fatal (e : DeployEnv)
    (hdet : (check_existing_mcp_server e.cloud e.mcp_server_name).1 = none)
    (hauth : (setup_cognito_user_pool e.auth e.region).1 ≠ none)
    (hlaunch : e.launchOk = true) :
    ((preLaunchRoleCheck e.preProbe).2 ≤ 24 ∧ iam_check_delay = 5) ∧
    ((preLaunchRoleCheck e.preProbe).1 = false ↔
      ∀ a, 1 ≤ a → a ≤ 24 → e.preProbe a = false) ∧
    ((preLaunchRoleCheck e.preProbe).1 = false →
      DeployEvent.warnPreLaunchTimeout ∈ (deploy_mcp_server e).2 ∧
      DeployEvent.launchRuntime ∈ (deploy_mcp_server e).2) ∧
    ((postLaunchRoleVerify e.postProbe).2 ≤ 24) ∧
    ((postLaunchRoleVerify e.postProbe).1 = none ↔
      ∀ a, 1 ≤ a → a ≤ 24 → e.postProbe a = none) ∧
    ((postLaunchRoleVerify e.postProbe).1 = none →
      (deploy_mcp_server e).1 = DeployExit.failure iamPropagationFailureMsg ∧
      exitCode (deploy_mcp_server e).1 = 1 ∧
      ∀ r p, DeployEvent.putRolePolicy r p ∉ (deploy_mcp_server e).2) := by
  obtain ⟨b, hb⟩ := Option.ne_none_iff_exists'.mp hauth
  refine ⟨⟨?_, rfl⟩, ?_, ?_, ?_, ?_, ?_⟩
  · simpa [preLaunchRoleCheck, iam_check_max_attempts] using
      pollGo_count_le (fun a => if e.preProbe a then some () else none)
        iam_check_max_attempts 0
  · unfold preLaunchRoleCheck
    cases hopt : (pollGo (fun a => if e.preProbe a then some () else none)
        iam_check_max_attempts 0).1 with
    | some v =>
      simp only [hopt, Option.isSome_some]
      constructor
      · intro h; cases h
      · intro hall
        exfalso
        have hno : (pollGo (fun a => if e.preProbe a then some () else none)
            iam_check_max_attempts 0).1 = none := by
          apply (pollGo_none_iff (fun a => if e.preProbe a then some () else none)
            iam_check_max_attempts 0).mpr
          intro a h1 h2
          have hfa := hall a (by omega) (by simpa [iam_check_max_attempts] using h2)
          rw [hfa]; simp
        rw [hopt] at hno; cases hno
    | none =>
      simp only [hopt, Option.isSome_none]
      constructor
      · intro _ a h1 h2
        have hx := (pollGo_none_iff (fun a => if e.preProbe a then some () else none)
          iam_check_max_attempts 0).mp hopt a (by omega)
          (by simpa [iam_check_max_attempts] using h2)
        by_cases hpa : e.preProbe a
        · rw [if_pos hpa] at hx; cases hx
        · exact Bool.eq_false_iff.mpr hpa
      · intro _; trivial
  · intro hpre
    cases hpost : (postLaunchRoleVerify e.postProbe).1 with
    | some roleName =>
      constructor <;> simp [deploy_mcp_server, hdet, hb, hlaunch, hpre, hpost]
    | none =>
      constructor <;> simp [deploy_mcp_server, hdet, hb, hlaunch, hpre, hpost]
  · simpa [postLaunchRoleVerify, iam_check_max_attempts] using
      pollGo_count_le e.postProbe iam_check_max_attempts 0
  · unfold postLaunchRoleVerify
    constructor
    · intro hn a h1 h2
      exact (pollGo_none_iff e.postProbe iam_check_max_attempts 0).mp hn a (by omega)
        (by simpa [iam_check_max_attempts] using h2)
    · intro hall
      exact (pollGo_none_iff e.postProbe iam_check_max_attempts 0).mpr
        (fun a h1 h2 => hall a (by omega)
          (by simpa [iam_check_max_attempts] using h2))
  · intro hpost
    have h1 : (deploy_mcp_server e).1 = DeployExit.failure iamPropagationFailureMsg := by
      simp [deploy_mcp_server, hdet, hb, hlaunch, hpost]
    refine ⟨h1, by rw [h1]; rfl, ?_⟩
    intro r p hmem
    have htr : (deploy_mcp_server e).2 =
        (check_existing_mcp_server e.cloud e.mcp_server_name).2 ++
        (setup_cognito_user_pool e.auth e.region).2 ++
        [DeployEvent.configureRuntime b.service_client_id b.discovery_url true none] ++
        (if (preLaunchRoleCheck e.preProbe).1 then []
         else [DeployEvent.warnPreLaunchTimeout]) ++
        [DeployEvent.launchRuntime] := by
      simp [deploy_mcp_server, hdet, hb, hlaunch, hpost]
    rw [htr] at hmem
    simp only [List.mem_append] at hmem
    rcases hmem with ((((h | h) | h) | h) | h)
    · have := check_existing_events e.cloud e.mcp_server_name _ h
      simp [isMutation] at this
    · rcases setup_cognito_events e.auth e.region _ h with
        h2 | h2 | h2 | h2 | h2 <;> cases h2
    · simp at h
    · cases hpre2 : (preLaunchRoleCheck e.preProbe).1 <;>
        rw [hpre2] at h <;> simp at h
    · simp at h

/-- C3 witness: the concrete new-mode run newModeEnv, whose probes never
succeed, ends in the fatal post-launch propagation failure while the
pre-launch timeout only left a warning. -/
theorem role_check_soft_vs_fatal_witness :
    (deploy_mcp_server newModeEnv).1 = DeployExit.failure iamPropagationFailureMsg ∧
    DeployEvent.warnPreLaunchTimeout ∈ (deploy_mcp_server newModeEnv).2 := by
  have h := role_check_soft_vs_fatal newModeEnv rfl (by decide) rfl
  exact ⟨(h.2.2.2.2.2 (by decide)).1, (h.2.2.1 (by decide)).1⟩

/-- C4: for a deploy run that takes the update-mode branch, the stored
credential bundle is never rewritten — the run creates no user pool, no
domain, no resource server, no client, writes no secret, and configures
the runtime with the detected authorizer client identifier, discovery
address and execution role unchanged. -/
theorem update_mode_credentials_immutable (e : DeployEnv) (existing : ExistingConfig)
    (hdet : (check_existing_mcp_server e.cloud e.mcp_server_name).1 = some existing)
    (hyes : affirmative e.answer = true) :
    (DeployEvent.createUserPool ∉ (deploy_mcp_server e).2 ∧
     DeployEvent.createUserPoolDomain ∉ (deploy_mcp_server e).2 ∧
     DeployEvent.createResourceServer ∉ (deploy_mcp_server e).2 ∧
     DeployEvent.createUserPoolClient ∉ (deploy_mcp_server e).2 ∧
     DeployEvent.createSecret ∉ (deploy_mcp_server e).2) ∧
    DeployEvent.configureRuntime existing.service_client_id existing.discovery_url
      false (some existing.execution_role_arn) ∈ (deploy_mcp_server e).2 := by
  have hshape : ∃ rest, (deploy_mcp_server e).2 =
      (check_existing_mcp_server e.cloud e.mcp_server_name).2 ++
        DeployEvent.configureRuntime existing.service_client_id existing.discovery_url
          false (some existing.execution_role_arn) :: rest ∧
      ∀ ev ∈ rest, ev = DeployEvent.launchRuntime ∨
        (∃ i, ev = DeployEvent.getRuntime i) ∨
        (∃ r p, ev = DeployEvent.putRolePolicy r p) ∨
        ev = DeployEvent.warnPermissions := by
    cases hl : e.launchOk with
    | false =>
      refine ⟨[], ?_, by simp⟩
      simp [deploy_mcp_server, hdet, hyes, hl]
    | true =>
      cases hu : e.updateRoleArn with
      | none =>
        refine ⟨[DeployEvent.launchRuntime], ?_, by simp⟩
        simp [deploy_mcp_server, hdet, hyes, hl, hu]
      | some roleArn =>
        refine ⟨[DeployEvent.launchRuntime,
                 DeployEvent.getRuntime existing.agent_runtime_id] ++
                  add_permissions (lastSegment roleArn) e.permFailAt, ?_, ?_⟩
        · simp [deploy_mcp_server, hdet, hyes, hl, hu]
        · intro ev hev
          rcases List.mem_append.mp hev with h | h
          · simp at h
            rcases h with h | h
            · exact Or.inl h
            · exact Or.inr (Or.inl ⟨_, h⟩)
          · rcases add_permissions_events _ _ ev h with ⟨r, p, hp⟩ | hp
            · exact Or.inr (Or.inr (Or.inl ⟨r, p, hp⟩))
            · exact Or.inr (Or.inr (Or.inr hp))
  obtain ⟨rest, htr, hrest⟩ := hshape
  constructor
  · refine ⟨?_, ?_, ?_, ?_, ?_⟩ <;>
    · rw [htr]
      intro hmem
      rcases List.mem_append.mp hmem with h | h
      · have := check_existing_events e.cloud e.mcp_server_name _ h
        simp [isMutation] at this
      · rcases List.mem_cons.mp h with h1 | h1
        · cases h1
        · rcases hrest _ h1 with h2 | ⟨i, h2⟩ | ⟨r, p, h2⟩ | h2 <;> cases h2
  · rw [htr]
    simp

/-- C4 witness: the concrete update-mode run updateModeEnv creates no auth
resource and reuses the detected client identifier and discovery address
verbatim. -/
theorem update_mode_credentials_immutable_witness :
    DeployEvent.createSecret ∉ (deploy_mcp_server updateModeEnv).2 ∧
    DeployEvent.configureRuntime "client-9" "https://disc.example" false
      (some "arn:aws:iam::123456789012:role/ins-role") ∈
        (deploy_mcp_server updateModeEnv).2 := by
  have h := update_mode_credentials_immutable updateModeEnv sampleExisting
    (by decide) (by decide)
  exact ⟨h.1.2.2.2.2, h.2⟩

/-- C5: when an existing runtime is detected and the reply to the update
prompt is not affirmative, the run ends user-cancelled with exit status 2
— distinct from both the success status 0 and the failure status 1 — and
the trace up to that point holds only read-only provider calls, no
mutation. -/
theorem cancel_exit_spec (e : DeployEnv) (existing : ExistingConfig)
    (hdet : (check_existing_mcp_server e.cloud e.mcp_server_name).1 = some existing)
    (hno : affirmative e.answer = false) :
    (deploy_mcp_server e).1 = DeployExit.userCancelled ∧
    exitCode (deploy_mcp_server e).1 = 2 ∧
    (∀ m, exitCode DeployExit.userCancelled ≠ exitCode DeployExit.success ∧
      exitCode DeployExit.userCancelled ≠ exitCode (DeployExit.failure m)) ∧
    (∀ ev ∈ (deploy_mcp_server e).2, isMutation ev = false) := by
  have h2 : deploy_mcp_server e =
      (DeployExit.userCancelled,
       (check_existing_mcp_server e.cloud e.mcp_server_name).2) := by
    simp [deploy_mcp_server, hdet, hno]
  refine ⟨by rw [h2], by rw [h2]; rfl,
    fun m => ⟨by simp [exitCode], by simp [exitCode]⟩, ?_⟩
  rw [h2]
  exact check_existing_events e.cloud e.mcp_server_name

/-- C5 witness: the concrete run cancelEnv (existing runtime, reply n)
exits user-cancelled with status 2. -/
theorem cancel_exit_spec_witness :
    (deploy_mcp_server cancelEnv).1 = DeployExit.userCancelled ∧
    exitCode (deploy_mcp_server cancelEnv).1 = 2 := by
  have h := cancel_exit_spec cancelEnv sampleExisting (by decide) (by decide)
  exact ⟨h.1, h.2.1⟩

/-- C7: auth provisioning is atomic on failure: the call returns the
bundle exactly when all five steps succeed; each creation call happens
exactly when it and all the calls before it succeed (so nothing is
attempted past the first failure, and in particular no secret is persisted
on any failure); and when provisioning fails the deploy run aborts with
the Failed-to-setup-Cognito error before configuring or launching any
runtime, so nothing downstream ever references a partial pool. -/
theorem auth_provisioning_atomic (a : AuthEnv) (region : String) :
    (∀ e : DeployEnv,
      (check_existing_mcp_server e.cloud e.mcp_server_name).1 = none →
      (setup_cognito_user_pool e.auth e.region).1 = none →
      deploy_mcp_server e = (DeployExit.failure "Failed to setup Cognito",
        (check_existing_mcp_server e.cloud e.mcp_server_name).2 ++
          (setup_cognito_user_pool e.auth e.region).2)) ∧
    (((setup_cognito_user_pool a region).1 = none) ↔
      (a.poolOk && a.domainOk && a.resourceServerOk && a.clientOk && a.secretOk)
        = false) ∧
    (DeployEvent.createSecret ∈ (setup_cognito_user_pool a region).2 ↔
      (a.poolOk && a.domainOk && a.resourceServerOk && a.clientOk && a.secretOk)
        = true) ∧
    (DeployEvent.createUserPoolClient ∈ (setup_cognito_user_pool a region).2 ↔
      (a.poolOk && a.domainOk && a.resourceServerOk && a.clientOk) = true) ∧
    (DeployEvent.createResourceServer ∈ (setup_cognito_user_pool a region).2 ↔
      (a.poolOk && a.domainOk && a.resourceServerOk) = true) ∧
    (DeployEvent.createUserPoolDomain ∈ (setup_cognito_user_pool a region).2 ↔
      (a.poolOk && a.domainOk) = true) ∧
    (DeployEvent.createUserPool ∈ (setup_cognito_user_pool a region).2 ↔
      a.poolOk = true) := by
  constructor
  · intro e hdet hnone
    simp [deploy_mcp_server, hdet, hnone]
  · obtain ⟨p, d, rs, c, sec, pid, cid, csec, dpx⟩ := a
    cases p <;> cases d <;> cases rs <;> cases c <;> cases sec <;>
      simp [setup_cognito_user_pool]

/-- C10: the Cognito teardown derives the pool identity solely from the
secret named serverName/cognito/credentials.  An absent secret means no
deletion call at all — even when pools exist in the cloud, which the
function never consults: its output depends only on the value of that one
secret.  A present secret drives exactly a domain deletion followed by a
pool deletion, both using the stored identifiers. -/
theorem cognito_cleanup_secret_only (serverName : String) :
    (∀ store : String → Option CognitoSecret,
      store (cognitoSecretName serverName) = none →
        cleanup_cognito_resources store serverName = []) ∧
    (∀ s1 s2 : String → Option CognitoSecret,
      s1 (cognitoSecretName serverName) = s2 (cognitoSecretName serverName) →
        cleanup_cognito_resources s1 serverName =
          cleanup_cognito_resources s2 serverName) ∧
    (∀ (store : String → Option CognitoSecret) (c : CognitoSecret),
      store (cognitoSecretName serverName) = some c →
        cleanup_cognito_resources store serverName =
          [CognitoAction.deleteDomain c.domain_pfx c.pool_id,
           CognitoAction.deleteUserPool c.pool_id]) := by
  refine ⟨?_, ?_, ?_⟩
  · intro store h
    simp [cleanup_cognito_resources, h]
  · intro s1 s2 h
    unfold cleanup_cognito_resources
    rw [h]
  · intro store c h
    simp [cleanup_cognito_resources, h]

/-- C6 amended: only a not-found on the detail call continues the
teardown-side search, and only there.  In get_mcp_server_details a
not-found on a matched entry skips it and the scan continues — within the
page, and across pages once a page ends without a usable match; any other
detail error instead aborts the whole lookup with None, because the
generic handler itself raises (it calls logger, undefined in cleanup.py).
The deploy-side check_existing_mcp_server stops paginating at the first
name match, and a not-found from its single detail call is caught by the
blanket handler: the lookup returns Absent without continuing the
search. -/
theorem runtime_lookup_detail_notfound (env : CloudEnv) (name : String) :
    (∀ r rest, r.agentRuntimeName = name →
      env.detail r.agentRuntimeId = DetailOutcome.notFound →
      scanRuntimes env.detail name (r :: rest) =
        scanRuntimes env.detail name rest) ∧
    (∀ page rest, scanRuntimes env.detail name page = ScanResult.exhausted →
      scanPages env.detail name (page :: rest) =
        scanPages env.detail name rest) ∧
    (∀ r rest, r.agentRuntimeName = name →
      env.detail r.agentRuntimeId = DetailOutcome.err →
      scanRuntimes env.detail name (r :: rest) = ScanResult.aborted) ∧
    (∀ page rest, scanRuntimes env.detail name page = ScanResult.aborted →
      scanPages env.detail name (page :: rest) = none) ∧
    (env.listError = none →
      get_mcp_server_details env name = scanPages env.detail name env.pages) ∧
    (∀ r, env.listError = none →
      findFirstMatch name env.pages = some r →
      env.detail r.agentRuntimeId = DetailOutcome.notFound →
      (check_existing_mcp_server env name).1 = none) := by
  refine ⟨?_, ?_, ?_, ?_, ?_, ?_⟩
  · intro r rest hname hdetail
    simp [scanRuntimes, hname, hdetail]
  · intro page rest h
    simp [scanPages, h]
  · intro r rest hname hdetail
    simp [scanRuntimes, hname, hdetail]
  · intro page rest h
    simp [scanPages, h]
  · intro h
    simp [get_mcp_server_details, h]
  · intro r hl hf hd
    simp [check_existing_mcp_server, hl, hf, hd]

/-- C6 counterexample: on racyCloud — two runtimes named ins-mcp on
successive pages, details resolving only for the second — the
teardown-side lookup continues past the not-found and returns the second
runtime, but the deploy-side lookup returns Absent: it does not continue
the paginated search after the not-found on its detail call. -/
theorem deploy_lookup_no_continue_counterexample :
    (check_existing_mcp_server racyCloud "ins-mcp").1 = none ∧
    get_mcp_server_details racyCloud "ins-mcp" =
      some { agent_runtime_id := "rt-B", agent_arn := "arnB"
             execution_role_arn := "arn:aws:iam::123456789012:role/role-B"
             execution_role_name := "role-B" } := by
  constructor
  · decide
  · decide

/-- C8 amended: not every error propagates.  Detection-level errors of any
kind — the operator's own PermissionDenied included — are swallowed by the
blanket handler of check_existing_mcp_server and turn into the absent
branch, so deploy proceeds in new-deployment mode instead of failing; a
failure while attaching permissions is caught inside add_permissions and
at worst warns, never changing the exit condition.  The errors that do
propagate reach the top-level handler, which prints the troubleshooting
hint set and exits with status 1. -/
theorem error_propagation_amended (e : DeployEnv) :
    (∀ err, e.cloud.listError = some err →
      (check_existing_mcp_server e.cloud e.mcp_server_name).1 = none) ∧
    (∀ msg, (deploy_mcp_server e).1 = DeployExit.failure msg →
      deployMain e = (1, troubleshootingHints)) ∧
    ((deploy_mcp_server e).1 = DeployExit.success → deployMain e = (0, [])) ∧
    (∀ k1 k2 : Option Nat,
      (deploy_mcp_server { e with permFailAt := k1 }).1 =
        (deploy_mcp_server { e with permFailAt := k2 }).1) := by
  have key : ∀ k : Option Nat,
      (deploy_mcp_server { e with permFailAt := k }).1 =
        (deploy_mcp_server { e with permFailAt := none }).1 := by
    intro k
    simp only [deploy_mcp_server]
    dsimp only
    cases hdet : (check_existing_mcp_server e.cloud e.mcp_server_name).1 with
    | some ex =>
      simp only [hdet]
      cases haff : affirmative e.answer with
      | false => simp [haff]
      | true =>
        cases hl : e.launchOk with
        | false => simp [haff, hl]
        | true =>
          cases hu : e.updateRoleArn with
          | none => simp [haff, hl, hu]
          | some arn => simp [haff, hl, hu]
    | none =>
      simp only [hdet]
      cases hau : (setup_cognito_user_pool e.auth e.region).1 with
      | none => simp [hau]
      | some b =>
        simp only [hau]
        cases hl : e.launchOk with
        | false => simp [hl]
        | true =>
          cases hpost : (postLaunchRoleVerify e.postProbe).1 with
          | none => simp [hl, hpost]
          | some role => simp [hl, hpost]
  refine ⟨?_, ?_, ?_, ?_⟩
  · intro err herr
    simp [check_existing_mcp_server, herr]
  · intro msg h
    simp [deployMain, h]
  · intro h
    simp [deployMain, h]
  · intro k1 k2
    rw [key k1, key k2]

set_option maxRecDepth 4000 in
/-- C8 counterexample: a run whose runtime-listing call fails with the
operator's own AccessDenied: detection swallows the error and reports the
server absent, deploy proceeds in new-deployment mode (the user pool is
created) and the process exits with status 0 — the permission failure is
converted into a normal branch instead of being surfaced as a fatal
error. -/
theorem permission_denied_swallowed_counterexample :
    accessDeniedEnv.cloud.listError = some CloudErr.accessDenied ∧
    (check_existing_mcp_server accessDeniedEnv.cloud
      accessDeniedEnv.mcp_server_name).1 = none ∧
    (deployMain accessDeniedEnv).1 = 0 ∧
    DeployEvent.createUserPool ∈ (deploy_mcp_server accessDeniedEnv).2 := by
  refine ⟨rfl, rfl, ?_, ?_⟩
  · decide
  · decide

set_option maxRecDepth 20000 in
/-- C9: on a bucket with 1001 objects the single-page bucket cleanup
deletes only the 1000 listed keys; the bucket deletion then fails and is
only warned about, so one object and the bucket itself remain —
contradicting the docstring of cleanup_s3_bucket (Delete S3 bucket and all
objects).  For a bucket with at most 1000 objects the claimed behaviour
does hold (empty, then delete, reporting success), and an absent bucket is
treated as success and left untouched. -/
theorem s3_cleanup_pagination_bug :
    ((cleanup_s3_bucket bigBucket).1.bucketExists = true ∧
     (cleanup_s3_bucket bigBucket).1.objects.length = 1 ∧
     (cleanup_s3_bucket bigBucket).2.2 = false) ∧
    (∀ s : S3State, s.bucketExists = false →
      cleanup_s3_bucket s = (s, ([], true))) ∧
    (∀ s : S3State, s.bucketExists = true → s.objects.length ≤ 1000 →
      ((cleanup_s3_bucket s).1.bucketExists = false ∧
       (cleanup_s3_bucket s).1.objects = [] ∧
       (cleanup_s3_bucket s).2.2 = true ∧
       S3Action.deleteBucket ∈ (cleanup_s3_bucket s).2.1 ∧
       (s.objects ≠ [] →
         S3Action.deleteObjects s.objects ∈ (cleanup_s3_bucket s).2.1))) := by
  have hbe : bigBucket.bucketExists = true := rfl
  have hlen : bigBucket.objects.length = 1001 := by simp [bigBucket]
  have htakelen : (bigBucket.objects.take s3_list_max_keys).length = 1000 := by
    simp [hlen, s3_list_max_keys]
  have htak : (bigBucket.objects.take s3_list_max_keys).isEmpty = false := by
    rw [List.isEmpty_eq_false]
    intro hnil
    rw [hnil] at htakelen
    simp at htakelen
  have hdroplen : (bigBucket.objects.drop s3_list_max_keys).length = 1 := by
    simp [hlen, s3_list_max_keys]
  have hdropne : (bigBucket.objects.drop s3_list_max_keys).isEmpty = false := by
    rw [List.isEmpty_eq_false]
    intro hnil
    rw [hnil] at hdroplen
    simp at hdroplen
  have hred : cleanup_s3_bucket bigBucket =
      ({ bucketExists := true,
         objects := bigBucket.objects.drop s3_list_max_keys },
       ([S3Action.deleteObjects (bigBucket.objects.take s3_list_max_keys)],
        false)) := by
    simp [cleanup_s3_bucket, hbe, htak, hdropne]
  refine ⟨⟨by rw [hred], by rw [hred]; exact hdroplen, by rw [hred]⟩, ?_, ?_⟩
  · intro s h
    simp [cleanup_s3_bucket, h]
  · intro s h1 h2
    have htake : s.objects.take s3_list_max_keys = s.objects :=
      List.take_of_length_le (by simpa [s3_list_max_keys] using h2)
    have hdrop : s.objects.drop s3_list_max_keys = [] :=
      List.drop_eq_nil_of_le (by simpa [s3_list_max_keys] using h2)
    by_cases hobj : s.objects = []
    · simp [cleanup_s3_bucket, h1, htake, hdrop, hobj]
    · have hne : s.objects.isEmpty = false := by
        rw [List.isEmpty_eq_false]; exact hobj
      refine ⟨?_, ?_, ?_, ?_, ?_⟩ <;>
        simp [cleanup_s3_bucket, h1, htake, hdrop, hne, hobj]

end InsuranceMcp
